import Mathlib

/-!
Verification development for the rules core of the `fcpw` chess engine
(bitboards, precomputed attack tables, magic bitboards, move encoding,
move generation, position state machine, perft).

The Rust sources are embedded shallowly:
* machine integers (`u64`, `u16`, `u8`) become `Nat` with explicit
  `% 2^w` masking where overflow matters;
* `enum Square`, `enum File`, `enum Rank` become `Nat` values (the
  enums are `#[repr]`-free field-ordered enums whose discriminants are
  exactly the integers the Rust code transmutes from);
* panicking paths (`expect`, `unwrap`, `assert!`, out-of-range
  `transmute`) become `Option` where a claim depends on them;
* `static` lookup tables built once at startup become pure functions
  computed on demand (the initialization is idempotent and the tables
  are read-only afterwards, so this is observationally equivalent).
-/

set_option maxRecDepth 10000

namespace Fcpw

/-- 2^64, the modulus of Rust `u64` arithmetic. -/
def U64 : Nat := 18446744073709551616

/-- 2^64 - 1, the all-ones 64-bit mask (`!0u64`). -/
def U64max : Nat := 18446744073709551615

/-- `color.rs`: `enum Color { White, Black }`. -/
inductive Color where
  | White
  | Black
deriving DecidableEq, Repr

/-- Discriminant of `Color` (`color as usize`). -/
def Color.idx : Color → Nat
  | .White => 0
  | .Black => 1

/-- `color.rs`: `Color::not`. -/
def Color.not : Color → Color
  | .White => .Black
  | .Black => .White

/-- `piece.rs`: `enum PieceType`. -/
inductive PieceType where
  | Pawn
  | Knight
  | Bishop
  | Rook
  | Queen
  | King
deriving DecidableEq, Repr

/-- Discriminant of `PieceType` (`kind as u8`). -/
def PieceType.idx : PieceType → Nat
  | .Pawn => 0
  | .Knight => 1
  | .Bishop => 2
  | .Rook => 3
  | .Queen => 4
  | .King => 5

/-- `piece.rs`: `PieceType::promotable()`. -/
def PieceType.promotable : List PieceType :=
  [.Knight, .Bishop, .Rook, .Queen]

/-- `piece.rs`: `struct Piece(NonZeroU8)` packs `(kind + 1) | (color << 3)`.
The packing round-trips `kind`/`color` exactly, so we embed `Piece` as the
record of its two projections. -/
structure Piece where
  kind : PieceType
  color : Color
deriving DecidableEq, Repr

/-- `square.rs`: `enum Direction`. -/
inductive Direction where
  | North
  | South
  | East
  | West
  | NorthEast
  | SouthEast
  | NorthWest
  | SouthWest
deriving DecidableEq, Repr, Fintype

/-- `square.rs`: `Direction::all()`. -/
def Direction.all : List Direction :=
  [.North, .South, .East, .West, .NorthEast, .SouthEast, .NorthWest, .SouthWest]

/-- `square.rs`: `Direction::orthogonal()`. -/
def Direction.orthogonal : List Direction :=
  [.North, .South, .East, .West]

/-- `square.rs`: `Direction::diagonal()`. -/
def Direction.diagonal : List Direction :=
  [.NorthEast, .SouthEast, .NorthWest, .SouthWest]

/-- `square.rs`: `Direction::is_forward`. -/
def Direction.is_forward : Direction → Bool
  | .North | .NorthEast | .NorthWest | .East => true
  | _ => false

/-- `square.rs`: `impl Not for Direction`. -/
def Direction.not : Direction → Direction
  | .North => .South
  | .South => .North
  | .East => .West
  | .West => .East
  | .NorthEast => .SouthWest
  | .SouthWest => .NorthEast
  | .NorthWest => .SouthEast
  | .SouthEast => .NorthWest

/-- Squares are the Rust `Square` discriminants: integers in `[0, 63]`,
`file + 8 * rank`. -/
abbrev Square := Nat

/-- `square.rs`: `Square::new(file, rank)` is `(rank << 3) + file`. -/
def Square.new (file rank : Nat) : Square := (rank <<< 3) + file

/-- `square.rs`: `Square::file` is `self as u8 & 7`. -/
def Square.file (s : Square) : Nat := s &&& 7

/-- `square.rs`: `Square::rank` is `self as u8 >> 3`. -/
def Square.rank (s : Square) : Nat := s >>> 3

/-- `u8::abs_diff`. -/
def absDiff (a b : Nat) : Nat := max a b - min a b

/-- `square.rs`: `Square::distance` (Chebyshev distance). -/
def Square.distance (s o : Square) : Nat :=
  max (absDiff (s.rank) (o.rank)) (absDiff (s.file) (o.file))

/-- `square.rs`: `Square::same_line`. -/
def Square.same_line (s o : Square) : Bool :=
  if s = o then false
  else if s.rank = o.rank || s.file = o.file then true
  else absDiff s.file o.file = absDiff s.rank o.rank

/-- `square.rs`: `Square::dir_to`. -/
def Square.dir_to (s o : Square) : Option Direction :=
  if ¬ s.same_line o then none
  else if s.rank = o.rank then
    if o < s then some .West else some .East
  else if s.file = o.file then
    if o < s then some .South else some .North
  else
    some (match decide (o.rank < s.rank), decide (o.file < s.file) with
      | true, true => Direction.SouthWest
      | true, false => Direction.SouthEast
      | false, true => Direction.NorthWest
      | false, false => Direction.NorthEast)

/-- Modelled from the spec: `Square::relative(color)` (used by
`Position::make_move` for detecting rook captures on the enemy home
squares but absent from the provided sources).  A square seen from
White's side is itself; from Black's side the board is flipped
rank-wise, so that e.g. `A1.relative(Black) == A8`. -/
def Square.relative (s : Square) (c : Color) : Square :=
  match c with
  | .White => s
  | .Black => Square.new s.file (7 - s.rank)

/-- Bitboards are `u64` values: bit `i` set iff square `i` is in the set. -/
abbrev Bitboard := Nat

namespace Bitboard

/-- `Bitboard::from(square)`: `1u64 << square`. -/
def fromSquare (s : Square) : Bitboard := (1 <<< s) % U64

/-- `Bitboard::from(Option<Square>)`. -/
def fromOptSquare : Option Square → Bitboard
  | some s => fromSquare s
  | none => 0

/-- `Bitboard::from_file` / `From<File>`: `0x0101010101010101 << file`. -/
def fromFile (f : Nat) : Bitboard := (72340172838076673 <<< f) % U64

/-- `Bitboard::from_rank` / `From<Rank>`: `0xff << (rank * 8)`. -/
def fromRank (r : Nat) : Bitboard := (255 <<< (r * 8)) % U64

/-- `Bitboard::not` (`!` on the underlying `u64`). -/
def bnot (b : Bitboard) : Bitboard := b ^^^ U64max

/-- `Bitboard::has`: `(self & from(sq)) > 0`. -/
def hasSq (b : Bitboard) (s : Square) : Bool := b &&& fromSquare s != 0

/-- Fuel-bounded count of trailing zero bits (`u64::trailing_zeros`;
64 units of fuel are exact for 64-bit values, and well-founded
recursion is avoided so that proofs can evaluate it). -/
def ctzAux : Nat → Nat → Nat
  | 0, _ => 0
  | fuel + 1, b => if b &&& 1 = 1 then 0 else 1 + ctzAux fuel (b >>> 1)

/-- `Bitboard::lsb` (index of the least significant one bit; the Rust
function asserts nonzero, callers guarantee it; on `0` the fuel runs
out and the junk value 64 results, whose singleton bitboard is `0`). -/
def lsb (b : Bitboard) : Square := ctzAux 64 b

/-- Fuel-bounded base-2 logarithm (index of the most significant one
bit; junk `0` on empty input, as for `lsb`). -/
def log2Aux : Nat → Nat → Nat
  | 0, _ => 0
  | fuel + 1, b => if b < 2 then 0 else 1 + log2Aux fuel (b >>> 1)

/-- `Bitboard::msb` (`63 - leading_zeros`). -/
def msb (b : Bitboard) : Square := log2Aux 64 b

/-- `Bitboard::without_lsb`: `b & (b - 1)`. -/
def without_lsb (b : Bitboard) : Bitboard := b &&& (b - 1)

/-- `Bitboard::more_than_one`: `b & (b - 1) > 0`. -/
def more_than_one (b : Bitboard) : Bool := b &&& (b - 1) != 0

/-- `Bitboard::popcount` (`count_ones`), fuel-bounded over the at most
64 set bits. -/
def popcountAux : Nat → Nat → Nat
  | 0, _ => 0
  | fuel + 1, b => if b = 0 then 0 else 1 + popcountAux fuel (b &&& (b - 1))

/-- `Bitboard::popcount`. -/
def popcount (b : Bitboard) : Nat := popcountAux 64 b

/-- North shift: `b << 8`. -/
def shN (b : Bitboard) : Bitboard := (b <<< 8) % U64

/-- South shift: `b >> 8`. -/
def shS (b : Bitboard) : Bitboard := b >>> 8

/-- East shift: `(b << 1) & !file(A)`. -/
def shE (b : Bitboard) : Bitboard := ((b <<< 1) % U64) &&& bnot (fromFile 0)

/-- West shift: `(b >> 1) & !file(H)`. -/
def shW (b : Bitboard) : Bitboard := (b >>> 1) &&& bnot (fromFile 7)

/-- `Shl<Direction> for Bitboard` (and the identical `Bitboard::shift`):
directional shift with A/H-file wrap masking; diagonals compose the
orthogonal shifts exactly as in the source. -/
def shiftD (b : Bitboard) : Direction → Bitboard
  | .North => shN b
  | .South => shS b
  | .East => shE b
  | .West => shW b
  | .NorthWest => shW (shN b)
  | .NorthEast => shE (shN b)
  | .SouthEast => shE (shS b)
  | .SouthWest => shW (shS b)

/-- Iteration of `BitboardIter` (squares in ascending index order),
fuel-bounded over the at most 64 set bits. -/
def toListAux : Nat → Bitboard → List Square
  | 0, _ => []
  | fuel + 1, b => if b = 0 then [] else lsb b :: toListAux fuel (b &&& (b - 1))

/-- Iteration of `BitboardIter`: squares in ascending index order. -/
def toList (b : Bitboard) : List Square := toListAux 64 b

end Bitboard

/-- `square.rs`: `Square::shift` — shift the square's singleton bitboard
and take the first element of the iterator (`None` if it fell off). -/
def Square.shift (s : Square) (d : Direction) : Option Square :=
  (Bitboard.shiftD (Bitboard.fromSquare s) d).toList.head?

/-- `Square::shift_unchecked` — UB when the shift falls off the board; we
pick the junk value 64, whose singleton bitboard is `0` after masking.
All uses below are guarded by the caller. -/
def Square.shift_unchecked (s : Square) (d : Direction) : Square :=
  (s.shift d).getD 64

/-- `precompute.rs` ray loop body:
`while s != 0 { s <<= d; r |= s }`, with enough fuel (a single-bit
bitboard falls off the board after at most 8 shifts). -/
def rayAux : Nat → Bitboard → Bitboard → Direction → Bitboard
  | 0, _, r, _ => r
  | fuel + 1, s, r, d =>
    if s = 0 then r
    else
      let s2 := Bitboard.shiftD s d
      rayAux fuel s2 (r ||| s2) d

/-- `precompute::ray(square, dir)` (`BB_RAYS`). -/
def ray (s : Square) (d : Direction) : Bitboard :=
  rayAux 64 (Bitboard.fromSquare s) 0 d

/-- `precompute::line(a, b)` (`BB_LINES`): for squares on a common line,
the union of the two opposing rays from `a` through/away from `b`, plus
`a` itself; `0` otherwise. -/
def line (a b : Square) : Bitboard :=
  match a.dir_to b, b.dir_to a with
  | some d1, some d2 => ray a d1 ||| ray a d2 ||| Bitboard.fromSquare a
  | _, _ => 0

/-- `bitboard.rs`: `Bitboard::interval(a, b)` =
`ray(a, dir) & ray(b, !dir)` when `a.dir_to(b) = Some(dir)`, else `0`. -/
def Bitboard.interval (a b : Square) : Bitboard :=
  match a.dir_to b with
  | some d => ray a d &&& ray b d.not
  | none => 0

/-- `precompute::pawn_attacks(square, color)` (`ATT_PAWNS`). -/
def pawn_attacks (s : Square) (c : Color) : Bitboard :=
  let sb := Bitboard.fromSquare s
  let sides := Bitboard.shiftD sb .West ||| Bitboard.shiftD sb .East
  match c with
  | .White => Bitboard.shiftD sides .North
  | .Black => Bitboard.shiftD sides .South

/-- `precompute::king_attacks(square)` (`ATT_KING`). -/
def king_attacks (s : Square) : Bitboard :=
  let sb := Bitboard.fromSquare s
  let sides := Bitboard.shiftD sb .West ||| Bitboard.shiftD sb .East
  pawn_attacks s .White ||| pawn_attacks s .Black ||| sides
    ||| Bitboard.shiftD sb .North ||| Bitboard.shiftD sb .South

/-- `precompute::knight_attacks(square)` (`ATT_KNIGHT`). -/
def knight_attacks (s : Square) : Bitboard :=
  let sb := Bitboard.fromSquare s
  let part (d : Direction) : Bitboard :=
    let dde := Bitboard.shiftD (Bitboard.shiftD (Bitboard.shiftD sb d) d) .East
    let ddw := Bitboard.shiftD (Bitboard.shiftD (Bitboard.shiftD sb d) d) .West
    let dee := Bitboard.shiftD (Bitboard.shiftD (Bitboard.shiftD sb d) .East) .East
    let dww := Bitboard.shiftD (Bitboard.shiftD (Bitboard.shiftD sb d) .West) .West
    dde ||| ddw ||| dee ||| dww
  part .North ||| part .South

/-- `precompute.rs`: `sliders(square, occupancy, dirs)` — the non-magic
ray cast with blocker truncation. -/
def sliders (s : Square) (occupancy : Bitboard) (dirs : List Direction) : Bitboard :=
  dirs.foldl (fun rv dir =>
    let attacks := ray s dir
    let blockers := attacks &&& occupancy
    if blockers ≠ 0 then
      let blocker := if dir.is_forward then Bitboard.lsb blockers else Bitboard.msb blockers
      rv ||| (attacks ^^^ ray blocker dir)
    else rv ||| attacks) 0

/-- `precompute::bishop_attacks` (non-magic build). -/
def bishop_attacks (s : Square) (occ : Bitboard) : Bitboard :=
  sliders s occ Direction.diagonal

/-- `precompute::rook_attacks` (non-magic build). -/
def rook_attacks (s : Square) (occ : Bitboard) : Bitboard :=
  sliders s occ Direction.orthogonal

/-- `precompute::queen_attacks` (non-magic build). -/
def queen_attacks (s : Square) (occ : Bitboard) : Bitboard :=
  sliders s occ Direction.all

/-! ### Spec-side square geometry for claim C7 -/

/-- Spec-side notion: `a` and `b` share a rank, file, or diagonal. -/
def sharesLine (a b : Square) : Bool :=
  a.rank = b.rank || a.file = b.file || absDiff a.file b.file = absDiff a.rank b.rank

/-- Spec-side notion: the squares strictly between `a` and `b` along
their shared rank, file or diagonal, enumerated by coordinate
interpolation from the endpoint of smaller coordinate (empty when the
squares share no line or are equal or adjacent). -/
def betweenList (a b : Square) : List Square :=
  let ar := a >>> 3
  let af := a &&& 7
  let br := b >>> 3
  let bf := b &&& 7
  if ar = br ∧ af ≠ bf then
    (List.range (absDiff af bf - 1)).map (fun i => 8 * ar + (min af bf + 1 + i))
  else if af = bf ∧ ar ≠ br then
    (List.range (absDiff ar br - 1)).map (fun i => 8 * (min ar br + 1 + i) + af)
  else if absDiff af bf = absDiff ar br ∧ af ≠ bf then
    (List.range (absDiff ar br - 1)).map (fun i =>
      let lr := min ar br
      let lf := if ar < br then af else bf
      let hf := if ar < br then bf else af
      8 * (lr + 1 + i) + (if lf < hf then lf + 1 + i else lf - 1 - i))
  else []

/-- The bitboard of squares strictly between `a` and `b` (spec side). -/
def betweenBB (a b : Square) : Bitboard :=
  (betweenList a b).foldl (fun acc s => acc ||| Bitboard.fromSquare s) 0

/-! ### Move encoding (`movegen.rs`) -/

/-- `movegen.rs`: `enum MoveKind`. -/
inductive MoveKind where
  | Normal
  | Castle
  | EnPassant
  | Promotion (t : PieceType)
deriving DecidableEq, Repr

/-- A `Move` is the value of the packed `NonZeroU16`:
bits 0-5 `from`, bits 6-11 `to`, bits 12-14 the kind tag. -/
abbrev Move := Nat

/-- Inverse of `PieceType.idx`, the `transmute` used when decoding the
promotion tag (only applied to 1..4). -/
def pieceTypeOfIdx : Nat → PieceType
  | 0 => .Pawn
  | 1 => .Knight
  | 2 => .Bishop
  | 3 => .Rook
  | 4 => .Queen
  | _ => .King

/-- `Move::new_with_kind`.  The Rust constructor panics when handed
`Promotion(Pawn)` or `Promotion(King)`; every call site below passes a
promotable piece type, and claim theorems restrict to that guard. -/
def Move.new_with_kind (f t : Square) (kind : MoveKind) : Move :=
  let squares := f ||| (t <<< 6)
  let flag :=
    match kind with
    | .Normal => 0
    | .Castle => 0x6000
    | .EnPassant => 0x7000
    | .Promotion t => t.idx <<< 12
  squares ||| flag

/-- `Move::new` (asserts `from != to`; all uses below satisfy it). -/
def Move.new (f t : Square) : Move := Move.new_with_kind f t .Normal

/-- `Move::from`. -/
def Move.fromSq (m : Move) : Square := m &&& 0x3f

/-- `Move::to`. -/
def Move.toSq (m : Move) : Square := (m >>> 6) &&& 0x3f

/-- `Move::kind`.  The bit pattern 5 makes the Rust function panic; it
is unreachable from the constructor and we return `Normal` there. -/
def Move.kind (m : Move) : MoveKind :=
  let bits := (m >>> 12) &&& 7
  if bits = 0 then .Normal
  else if bits ≤ 4 then .Promotion (pieceTypeOfIdx bits)
  else if bits = 6 then .Castle
  else if bits = 7 then .EnPassant
  else .Normal

/-- `Move::is_promo`. -/
def Move.is_promo (m : Move) : Bool :=
  match m.kind with
  | .Promotion _ => true
  | _ => false

/-- `Move::get_promo`. -/
def Move.get_promo (m : Move) : Option PieceType :=
  match m.kind with
  | .Promotion t => some t
  | _ => none

/-- The Move invariant on kinds: a promotion carries neither a pawn nor
a king (`Move::new_with_kind` panics otherwise). -/
def validMoveKind : MoveKind → Prop
  | .Promotion t => t ≠ .Pawn ∧ t ≠ .King
  | _ => True

instance (k : MoveKind) : Decidable (validMoveKind k) := by
  cases k <;> simp [validMoveKind] <;> infer_instance

/-- kind tag of each valid move kind. -/
def kindTag : MoveKind → Nat
  | .Normal => 0
  | .Castle => 6
  | .EnPassant => 7
  | .Promotion t => t.idx


/-! ### Castling flags (`position.rs`) -/

/-- `position.rs`: `enum CastleFlag` (only the four unambiguous
variants are ever handed to the square accessors). -/
inductive CastleFlag where
  | WhiteShort
  | WhiteLong
  | BlackShort
  | BlackLong
deriving DecidableEq, Repr

namespace CastleFlag

/-- `CastleFlag::color`. -/
def color : CastleFlag → Color
  | .WhiteShort | .WhiteLong => .White
  | .BlackShort | .BlackLong => .Black

/-- `CastleFlag::from_square` (E1 = 4, E8 = 60). -/
def from_square (cf : CastleFlag) : Square :=
  match cf.color with
  | .White => 4
  | .Black => 60

/-- `CastleFlag::to_square` (G1, C1, G8, C8). -/
def to_square : CastleFlag → Square
  | .WhiteShort => 6
  | .WhiteLong => 2
  | .BlackShort => 62
  | .BlackLong => 58

/-- `CastleFlag::rook_from_square` (H1, A1, H8, A8). -/
def rook_from_square : CastleFlag → Square
  | .WhiteShort => 7
  | .WhiteLong => 0
  | .BlackShort => 63
  | .BlackLong => 56

/-- `CastleFlag::rook_to_square` (F1, D1, F8, D8). -/
def rook_to_square : CastleFlag → Square
  | .WhiteShort => 5
  | .WhiteLong => 3
  | .BlackShort => 61
  | .BlackLong => 59

/-- `CastleFlag::variants_for`. -/
def variants_for : Color → List CastleFlag
  | .White => [.WhiteShort, .WhiteLong]
  | .Black => [.BlackShort, .BlackLong]

/-- `CastleFlag::short_for`. -/
def short_for : Color → CastleFlag
  | .White => .WhiteShort
  | .Black => .BlackShort

/-- `CastleFlag::long_for`. -/
def long_for : Color → CastleFlag
  | .White => .WhiteLong
  | .Black => .BlackLong

/-- `From<CastleFlag> for u8`. -/
def toU8 : CastleFlag → Nat
  | .WhiteShort => 1
  | .WhiteLong => 2
  | .BlackShort => 4
  | .BlackLong => 8

end CastleFlag

/-- `color.rs`: `Color::relative_rank` (ranks as integers 0..7). -/
def Color.relative_rank (c : Color) (r : Nat) : Nat :=
  match c with
  | .White => r
  | .Black => 7 - r

/-- `color.rs`: `Color::forward`. -/
def Color.forward : Color → Direction
  | .White => .North
  | .Black => .South

/-! ### Position and State (`position.rs`) -/

/-- `position.rs`: `struct State`, the per-ply undo record.  The
`previous` box chain is represented by keeping the whole stack of
records as a list in `Position` (newest first), which is exactly the
linked list the Rust code maintains. -/
structure State where
  checkers : Bitboard
  pinnersW : Bitboard
  pinnersB : Bitboard
  blockersW : Bitboard
  blockersB : Bitboard
  captured : Option Piece
  en_passant : Option Square
  castle_rights : Nat
  halfmoves : Int
deriving DecidableEq

namespace State

/-- `State::new()`. -/
def new : State :=
  { checkers := 0, pinnersW := 0, pinnersB := 0, blockersW := 0, blockersB := 0,
    captured := none, en_passant := none, castle_rights := 0, halfmoves := 0 }

/-- `impl Clone for State`: keeps `halfmoves` and `castle_rights`, resets
everything else (the `previous` field of the clone is `None`). -/
def clone (st : State) : State :=
  { new with castle_rights := st.castle_rights, halfmoves := st.halfmoves }

/-- `pinners[color]`. -/
def pinners (st : State) : Color → Bitboard
  | .White => st.pinnersW
  | .Black => st.pinnersB

/-- `blockers[color]`. -/
def blockers (st : State) : Color → Bitboard
  | .White => st.blockersW
  | .Black => st.blockersB

/-- Write `pinners[color]`. -/
def setPinners (st : State) (col : Color) (v : Bitboard) : State :=
  match col with
  | .White => { st with pinnersW := v }
  | .Black => { st with pinnersB := v }

/-- Write `blockers[color]`. -/
def setBlockers (st : State) (col : Color) (v : Bitboard) : State :=
  match col with
  | .White => { st with blockersW := v }
  | .Black => { st with blockersB := v }

end State

/-- `position.rs`: `struct Position`.  The `colors` and `pieces` arrays
become one field per index; `state: Option<Box<State>>` is always
`Some` outside the make/unmake internals, so it is embedded as a bare
`State`. -/
structure Position where
  to_move : Color
  moves : Int
  colorsW : Bitboard
  colorsB : Bitboard
  pawns : Bitboard
  knights : Bitboard
  bishops : Bitboard
  rooks : Bitboard
  queens : Bitboard
  kings : Bitboard
  board : List (Option Piece)
  stack : List State
deriving DecidableEq

namespace Position

/-- `Position::new()`. -/
def new : Position :=
  { to_move := .White, moves := 0,
    colorsW := 0, colorsB := 0,
    pawns := 0, knights := 0, bishops := 0, rooks := 0, queens := 0, kings := 0,
    board := List.replicate 64 none, stack := [State.new] }

/-- `Position::state()`: the top of the state stack (`unwrap`ped in
Rust; junk `State.new` when the stack is empty, which no claim path
reaches). -/
def st (p : Position) : State := p.stack.headD State.new

/-- `Position::state_mut()`-style update of the top state record. -/
def modSt (p : Position) (f : State → State) : Position :=
  { p with stack := match p.stack with
    | [] => []
    | s :: rest => f s :: rest }

/-- `Position::color`. -/
def color (p : Position) : Color → Bitboard
  | .White => p.colorsW
  | .Black => p.colorsB

/-- `Position::all`. -/
def all (p : Position) : Bitboard := p.colorsW ||| p.colorsB

/-- `Position::pieces`. -/
def pieces (p : Position) : PieceType → Bitboard
  | .Pawn => p.pawns
  | .Knight => p.knights
  | .Bishop => p.bishops
  | .Rook => p.rooks
  | .Queen => p.queens
  | .King => p.kings

/-- `Position::pieces_list`. -/
def pieces_list (p : Position) (ts : List PieceType) : Bitboard :=
  ts.foldl (fun res t => res ||| p.pieces t) 0

/-- `Position::spec`. -/
def spec (p : Position) (t : PieceType) (c : Color) : Bitboard :=
  p.pieces t &&& p.color c

/-- `Position::spec_list`. -/
def spec_list (p : Position) (ts : List PieceType) (c : Color) : Bitboard :=
  p.pieces_list ts &&& p.color c

/-- `Position::piece_on`. -/
def piece_on (p : Position) (s : Square) : Option Piece :=
  (p.board.getD s none)

/-- `Position::empty`. -/
def isEmptySq (p : Position) (s : Square) : Bool := (p.piece_on s).isNone

/-- `Position::king` (`lsb_unchecked` of the king bitboard; UB when the
king is absent — the embedding returns the `lsb` junk value 0 there,
and every claim theorem guards king presence). -/
def king (p : Position) (c : Color) : Square :=
  Bitboard.lsb (p.spec .King c)

/-- `Position::ep`. -/
def ep (p : Position) : Option Square := p.st.en_passant

/-- `Position::checkers`. -/
def checkers (p : Position) : Bitboard := p.st.checkers

/-- `Position::pinners`. -/
def pinners (p : Position) (c : Color) : Bitboard := p.st.pinners c

/-- `Position::blockers`. -/
def blockers (p : Position) (c : Color) : Bitboard := p.st.blockers c

/-- `Position::rule50`. -/
def rule50 (p : Position) : Int := p.st.halfmoves

/-- `Position::in_check`. -/
def in_check (p : Position) : Bool := p.checkers != 0

/-- `Position::has_castle`. -/
def has_castle (p : Position) (cf : CastleFlag) : Bool :=
  p.st.castle_rights &&& cf.toU8 = cf.toU8

/-- `Position::can_castle` (the strict pre-check is compiled out; only
the occupancy test between king and rook remains). -/
def can_castle (p : Position) (cf : CastleFlag) : Bool :=
  let inb := Bitboard.interval cf.from_square cf.rook_from_square
  inb &&& p.all = 0

/-- `Position::add_castle_right`. -/
def add_castle_right (p : Position) (cf : CastleFlag) : Position :=
  p.modSt (fun s => { s with castle_rights := s.castle_rights ||| cf.toU8 })

/-- `Position::remove_castle_right` (`rights &= !u8::from(cf)`). -/
def remove_castle_right (p : Position) (cf : CastleFlag) : Position :=
  p.modSt (fun s => { s with castle_rights := s.castle_rights &&& (cf.toU8 ^^^ 255) })

/-- Write one square of the board array. -/
def setBoard (p : Position) (s : Square) (v : Option Piece) : Position :=
  { p with board := p.board.set s v }

/-- Update the color bitboard of `c` with `f`. -/
def updColor (p : Position) (c : Color) (f : Bitboard → Bitboard) : Position :=
  match c with
  | .White => { p with colorsW := f p.colorsW }
  | .Black => { p with colorsB := f p.colorsB }

/-- Update the piece bitboard of `t` with `f`. -/
def updPieces (p : Position) (t : PieceType) (f : Bitboard → Bitboard) : Position :=
  match t with
  | .Pawn => { p with pawns := f p.pawns }
  | .Knight => { p with knights := f p.knights }
  | .Bishop => { p with bishops := f p.bishops }
  | .Rook => { p with rooks := f p.rooks }
  | .Queen => { p with queens := f p.queens }
  | .King => { p with kings := f p.kings }

/-- `Position::add_piece`: panics (`none`) when the square is occupied. -/
def add_piece (p : Position) (piece : Piece) (square : Square) : Option Position :=
  if (p.board.getD square none).isSome then none
  else
    let bb := Bitboard.fromSquare square
    some ((((p.setBoard square (some piece)).updColor piece.color (· ||| bb)).updPieces
      piece.kind (· ||| bb)))

/-- `Position::remove_piece`: `take`s the board slot; no panic. -/
def remove_piece (p : Position) (square : Square) : Position × Option Piece :=
  match p.board.getD square none with
  | none => (p, none)
  | some pc =>
    let bb := Bitboard.fromSquare square
    ((((p.setBoard square none).updColor pc.color (· ^^^ bb)).updPieces
      pc.kind (· ^^^ bb)), some pc)

/-- `Position::move_piece`: panics (`none`) when `from` is empty; like
the non-strict Rust build it silently overwrites `to`. -/
def move_piece (p : Position) (f t : Square) : Option Position :=
  match p.board.getD f none with
  | none => none
  | some pc =>
    let x := Bitboard.fromSquare f ||| Bitboard.fromSquare t
    some (((((p.setBoard f none).setBoard t (some pc)).updColor pc.color
      (· ^^^ x)).updPieces pc.kind (· ^^^ x)))

/-- `Position::sliders_to`. -/
def sliders_to (p : Position) (square : Square) (occupancy : Bitboard) : Bitboard :=
  let bishopsAtt := bishop_attacks square occupancy &&& p.pieces_list [.Bishop, .Queen]
  let rooksAtt := rook_attacks square occupancy &&& p.pieces_list [.Rook, .Queen]
  bishopsAtt ||| rooksAtt

/-- `Position::attacks_to_with_occ`. -/
def attacks_to_with_occ (p : Position) (square : Square) (by_ : Color)
    (occupancy : Bitboard) : Bitboard :=
  let pawnsAtt := pawn_attacks square by_.not &&& p.pieces .Pawn
  let knightsAtt := knight_attacks square &&& p.pieces .Knight
  let slidersAtt := p.sliders_to square occupancy
  let kingsAtt := king_attacks square &&& p.pieces .King
  (pawnsAtt ||| knightsAtt ||| slidersAtt ||| kingsAtt) &&& p.color by_

/-- `Position::attacks_to`. -/
def attacks_to (p : Position) (square : Square) (by_ : Color) : Bitboard :=
  p.attacks_to_with_occ square by_ p.all

/-- `Position::update_checkers_blockers` for one color. -/
def update_checkers_blockers (p : Position) (c : Color) : Position :=
  let kingSq := p.king c
  let potential_pinners := p.attacks_to_with_occ kingSq c.not 0
    &&& p.pieces_list [.Bishop, .Rook, .Queen]
  (Bitboard.toList potential_pinners).foldl (fun acc pp =>
    let line_to_king := Bitboard.interval kingSq pp &&& acc.all
    if line_to_king.more_than_one || line_to_king = 0 then acc
    else
      let acc1 := acc.modSt (fun s => s.setBlockers c (s.blockers c ||| line_to_king))
      acc1.modSt (fun s => s.setPinners c.not (s.pinners c.not ||| Bitboard.fromSquare pp))) p

/-- `Position::update_state`. -/
def update_state (p : Position) : Position :=
  let mov_color := p.to_move
  let kingSq := p.king mov_color
  let p1 := p.modSt (fun s => { s with checkers := p.attacks_to kingSq mov_color.not })
  (p1.update_checkers_blockers .White).update_checkers_blockers .Black

end Position

/-- `piece.rs`: `TryFrom<char> for Piece`. -/
def pieceFromChar (c : Char) : Option Piece :=
  let kind : Option PieceType :=
    match c.toLower with
    | 'p' => some .Pawn
    | 'n' => some .Knight
    | 'b' => some .Bishop
    | 'r' => some .Rook
    | 'q' => some .Queen
    | 'k' => some .King
    | _ => none
  match kind with
  | none => none
  | some k => some ⟨k, if c.isLower then .Black else .White⟩

/-- `square.rs`: `TryFrom<u8> for File` (bare byte value, no ASCII
decoding — values 8 and above are rejected). -/
def fileFromByte (b : Nat) : Option Nat :=
  if b < 8 then some b else none

/-- `square.rs`: `TryFrom<u8> for Rank`. -/
def rankFromByte (b : Nat) : Option Nat :=
  if b < 8 then some b else none

/-- `square.rs`: `TryFrom<[u8; 2]> for Square` — note the rank byte is
decoded with `- b'0'`, so the digit `'1'` yields rank index 1 (the
second rank) and `'8'` is rejected. -/
def squareFromBytes (c0 c1 : Char) : Option Square :=
  let b0 := c0.toNat
  let b1 := c1.toNat
  if b0 < 97 ∨ b1 < 48 then none
  else
    let f := b0 - 97
    let r := b1 - 48
    if 8 ≤ f ∨ 8 ≤ r then none
    else some (Square.new f r)

namespace Position

/-- Piece-placement phase of `Position::new_from_fen` (the first
`for x in iter` loop).  Returns the filled position and the characters
after the terminating space; panics become `none`. -/
def fenBoard : List Char → Nat → Nat → Position → Option (Position × List Char)
  | [], _, _, pos => some (pos, [])
  | c :: rest, file, rank, pos =>
    if c = ' ' then some (pos, rest)
    else if c = '/' then
      if rank = 0 then none
      else fenBoard rest 0 (rank - 1) pos
    else if '1' ≤ c ∧ c ≤ '8' then
      let shiftness := c.toNat - 48
      let file_index := file + shiftness
      if 8 ≤ file_index then fenBoard rest 7 rank pos
      else fenBoard rest file_index rank pos
    else
      match pieceFromChar c with
      | none => none
      | some p =>
        match pos.add_piece p (Square.new file rank) with
        | none => none
        | some pos' =>
          fenBoard rest (if file ≠ 7 then file + 1 else file) rank pos'

/-- Castling-rights phase of `Position::new_from_fen`. -/
def fenCastle : List Char → Position → Option (Position × List Char)
  | [], pos => some (pos, [])
  | c :: rest, pos =>
    if c = ' ' then some (pos, rest)
    else if c = '-' then
      match rest with
      | ' ' :: rest2 => some (pos, rest2)
      | _ => none
    else
      match c with
      | 'K' => fenCastle rest (pos.add_castle_right .WhiteShort)
      | 'Q' => fenCastle rest (pos.add_castle_right .WhiteLong)
      | 'k' => fenCastle rest (pos.add_castle_right .BlackShort)
      | 'q' => fenCastle rest (pos.add_castle_right .BlackLong)
      | _ => none

/-- `Position::new_from_fen` on the FEN's character list.  All panics
become `none`.  Note the en-passant branch feeds the raw ASCII bytes to
`TryFrom<u8> for File`/`Rank` and `unwrap`s the result. -/
def new_from_fen (fen : List Char) : Option Position := do
  let (pos0, rest0) ← fenBoard fen 0 7 Position.new
  let (toMove, rest1) ←
    match rest0 with
    | 'w' :: r => some (Color.White, r)
    | '-' :: r => some (Color.White, r)
    | 'b' :: r => some (Color.Black, r)
    | _ => none
  let pos1 := { pos0 with to_move := toMove }
  let rest2 ←
    match rest1 with
    | ' ' :: r => some r
    | _ => none
  let (pos2, rest3) ← fenCastle rest2 pos1
  let one := rest3.head?
  let two := (rest3.drop 1).head?
  match one with
  | none => some pos2
  | some '-' => some pos2.update_state
  | some f_char => do
    let r_char ← two
    let f ← fileFromByte f_char.toNat
    let r ← rankFromByte r_char.toNat
    let s := Square.new f r
    some (pos2.modSt (fun st => { st with en_passant := some s })).update_state

/-- `Position::STARTING_FEN`. -/
def STARTING_FEN : List Char :=
  "rnbqkbnr/pppppppp/8/8/8/8/PPPPPPPP/RNBQKBNR w KQkq - 0 1".toList

/-- `Position::KIWIPETE_FEN` (with the double space of the source). -/
def KIWIPETE_FEN : List Char :=
  "r3k2r/p1ppqpb1/bn2pnp1/3PN3/1p2P3/2N2Q1p/PPPBBPPP/R3K2R w KQkq -  0 1".toList

end Position

/-- `Move::new_from_uci` (`movegen.rs`): resolve a UCI move string
against a position. -/
def Move.new_from_uci (uci : List Char) (pos : Position) : Option Move :=
  if uci.length < 4 ∨ 5 < uci.length then none
  else do
    let promo_type : Option (Option PieceType) :=
      if uci.length = 5 then
        match uci.getD 4 ' ' with
        | 'n' => some (some .Knight)
        | 'b' => some (some .Bishop)
        | 'r' => some (some .Rook)
        | 'q' => some (some .Queen)
        | _ => none
      else some none
    let pt ← promo_type
    let from_sq ← squareFromBytes (uci.getD 0 ' ') (uci.getD 1 ' ')
    let to_sq ← squareFromBytes (uci.getD 2 ' ') (uci.getD 3 ' ')
    let mover ← pos.piece_on from_sq
    let kind : Option MoveKind :=
      if mover.kind = .King ∧ from_sq.distance to_sq = 2 then some .Castle
      else if some to_sq = pos.ep ∧ mover.kind = .Pawn then some .EnPassant
      else if mover.kind = .Pawn ∧ to_sq.rank = mover.color.relative_rank 7 then
        match pt with
        | some t => some (.Promotion t)
        | none => none
      else some .Normal
    let k ← kind
    let isPromoKind : Bool := match k with | .Promotion _ => true | _ => false
    if pt.isSome ∧ ¬ isPromoKind then none
    else some (Move.new_with_kind from_sq to_sq k)

/-- `Piece::new`. -/
def Piece.new (kind : PieceType) (color : Color) : Piece := ⟨kind, color⟩

/-! ### Legality filter (`position.rs`: `Position::is_legal`) -/

namespace Position

/-- `Position::is_legal`, first block (`if self.in_check() { .. }`):
king movers may not castle out of check and their destination must not
be attacked with the king removed from the occupancy; other movers are
rejected under double check and must otherwise capture the sole
checker, interpose, or (for en passant) capture the checking pawn. -/
def legalCheckBlock (p : Position) (mov : Move) : Bool :=
  let us := p.to_move
  let t := mov.toSq
  let f := mov.fromSq
  if p.in_check then
    if f = p.king us then
      if mov.kind = .Castle then false
      else p.attacks_to_with_occ t us.not (p.all ^^^ Bitboard.fromSquare f) = 0
    else
      if (p.checkers).more_than_one then false
      else if mov.kind = .EnPassant then
        (p.checkers).hasSq (Square.new t.file f.rank)
      else
        let x := Bitboard.lsb p.checkers
        (Bitboard.interval x (p.king us) ||| p.checkers).hasSq t
  else true

/-- `Position::is_legal`, pin block: a mover listed in the
side-to-move's blockers must stay on the line through itself and the
king. -/
def legalPinBlock (p : Position) (mov : Move) : Bool :=
  if (p.blockers p.to_move).hasSq mov.fromSq then
    line mov.fromSq (p.king p.to_move) &&& Bitboard.fromSquare mov.toSq ≠ 0
  else true

/-- `Position::is_legal`, king travel block: every square the king
passes over (including the destination) must be unattacked with the
king removed from the occupancy. -/
def legalKingTravelBlock (p : Position) (mov : Move) : Bool :=
  let us := p.to_move
  let t := mov.toSq
  let f := mov.fromSq
  if f = p.king us then
    (Bitboard.toList (Bitboard.interval f t ||| Bitboard.fromSquare t)).all (fun x =>
      p.attacks_to_with_occ x us.not (p.all ^^^ Bitboard.fromSquare f) = 0)
  else true

/-- `Position::is_legal`, en-passant block: removing the captured and
capturing pawns must not reveal a slider attack on the king. -/
def legalEpBlock (p : Position) (mov : Move) : Bool :=
  if mov.kind = .EnPassant then
    let t := mov.toSq
    let f := mov.fromSq
    let ep_able_pawn := Square.new t.file f.rank
    let new_occ := p.all ^^^ (Bitboard.fromSquare ep_able_pawn
      ||| Bitboard.fromSquare f ||| Bitboard.fromSquare t)
    p.sliders_to (p.king p.to_move) new_occ &&& p.color p.to_move.not = 0
  else true

/-- `Position::is_legal`.  The leading `is_pseudo_legal` strict check is
compiled out in the non-strict build (its body is `todo!()` and is
never evaluated there).  The Rust function is a sequence of early
`return false`s; it is embedded as the conjunction of its four blocks. -/
def is_legal (p : Position) (mov : Move) : Bool :=
  legalCheckBlock p mov && legalPinBlock p mov
    && legalKingTravelBlock p mov && legalEpBlock p mov

end Position

/-! ### Move generation (`movegen.rs`: `mod generate`) -/

namespace generate

/-- `MoveList::push` (the 256-entry capacity assertion of the Rust
array-backed list is not modelled; no position reached in the claims
comes near it). -/
def push (l : List Move) (m : Move) : List Move := l ++ [m]

/-- `MoveList::remove`: swap-remove with the last element. -/
def removeAt (l : List Move) (i : Nat) : List Move :=
  let last := l.getD (l.length - 1) 0
  (l.set i last).take (l.length - 1)

/-- `generate::add_prom`. -/
def add_prom (f t : Square) (list : List Move) : List Move :=
  PieceType.promotable.foldl
    (fun l kind => push l (Move.new_with_kind f t (.Promotion kind))) list

/-- `generate::pawn_moves`. -/
def pawn_moves (pos : Position) (list : List Move) : List Move :=
  let us := pos.to_move
  let enemies := pos.color us.not ||| Bitboard.fromOptSquare pos.ep
  let empty := Bitboard.bnot pos.all
  let pawns := pos.spec .Pawn us
  let potential_promotions := pawns &&& Bitboard.fromRank (us.relative_rank 6)
  let non_promotions := pawns ^^^ potential_promotions
  let third_rank := Bitboard.fromRank (us.relative_rank 2)
  let forward := if us = .White then Direction.North else Direction.South
  let list := (Bitboard.toList potential_promotions).foldl (fun l p =>
    let up := p.shift_unchecked forward
    let l := if pos.isEmptySq up then add_prom p up l else l
    let proms := (Bitboard.fromOptSquare (up.shift .East)
      ||| Bitboard.fromOptSquare (up.shift .West)) &&& enemies
    (Bitboard.toList proms).foldl (fun l2 dest => add_prom p dest l2) l) list
  let one_ups := Bitboard.shiftD non_promotions forward &&& empty
  let two_ups := Bitboard.shiftD (one_ups &&& third_rank) forward &&& empty
  let list := (Bitboard.toList one_ups).foldl (fun l p =>
    push l (Move.new (p.shift_unchecked forward.not) p)) list
  let list := (Bitboard.toList two_ups).foldl (fun l p =>
    push l (Move.new ((p.shift_unchecked forward.not).shift_unchecked forward.not) p)) list
  let up_east := Bitboard.shiftD (Bitboard.shiftD non_promotions forward) .East &&& enemies
  let up_west := Bitboard.shiftD (Bitboard.shiftD non_promotions forward) .West &&& enemies
  let list := (Bitboard.toList up_east).foldl (fun l x =>
    let f := (x.shift_unchecked forward.not).shift_unchecked .West
    let tk : MoveKind := if some x = pos.ep then .EnPassant else .Normal
    push l (Move.new_with_kind f x tk)) list
  (Bitboard.toList up_west).foldl (fun l x =>
    let f := (x.shift_unchecked forward.not).shift_unchecked .East
    let tk : MoveKind := if some x = pos.ep then .EnPassant else .Normal
    push l (Move.new_with_kind f x tk)) list

/-- `generate::knight_moves`. -/
def knight_moves (pos : Position) (list : List Move) : List Move :=
  let us := pos.to_move
  let knights := pos.spec .Knight us
  (Bitboard.toList knights).foldl (fun l k =>
    let movs := knight_attacks k &&& Bitboard.bnot (pos.color us)
    (Bitboard.toList movs).foldl (fun l2 m => push l2 (Move.new k m)) l) list

/-- `generate::bishop_moves`. -/
def bishop_moves (pos : Position) (list : List Move) : List Move :=
  let us := pos.to_move
  let bishopsBB := pos.spec .Bishop us
  let targets := Bitboard.bnot (pos.color us)
  (Bitboard.toList bishopsBB).foldl (fun l b =>
    let atts := bishop_attacks b pos.all &&& targets
    (Bitboard.toList atts).foldl (fun l2 t => push l2 (Move.new b t)) l) list

/-- `generate::rook_moves`. -/
def rook_moves (pos : Position) (list : List Move) : List Move :=
  let us := pos.to_move
  let rooksBB := pos.spec .Rook us
  let targets := Bitboard.bnot (pos.color us)
  (Bitboard.toList rooksBB).foldl (fun l r =>
    let atts := rook_attacks r pos.all &&& targets
    (Bitboard.toList atts).foldl (fun l2 t => push l2 (Move.new r t)) l) list

/-- `generate::queen_moves`. -/
def queen_moves (pos : Position) (list : List Move) : List Move :=
  let us := pos.to_move
  let queensBB := pos.spec .Queen us
  let targets := Bitboard.bnot (pos.color us)
  (Bitboard.toList queensBB).foldl (fun l q =>
    let atts := queen_attacks q pos.all &&& targets
    (Bitboard.toList atts).foldl (fun l2 t => push l2 (Move.new q t)) l) list

/-- `generate::king_moves`. -/
def king_moves (pos : Position) (list : List Move) : List Move :=
  let us := pos.to_move
  let kingSq := pos.king us
  let movs := king_attacks kingSq &&& Bitboard.bnot (pos.color us)
  let list := (Bitboard.toList movs).foldl (fun l m => push l (Move.new kingSq m)) list
  (CastleFlag.variants_for us).foldl (fun l cf =>
    if pos.has_castle cf && pos.can_castle cf then
      push l (Move.new_with_kind cf.from_square cf.to_square .Castle)
    else l) list

/-- `generate::pseudo_legal`. -/
def pseudo_legal (pos : Position) : List Move :=
  king_moves pos (queen_moves pos (rook_moves pos (bishop_moves pos
    (knight_moves pos (pawn_moves pos [])))))

/-- The loop of `generate::prune_to_legal`, fuel-bounded: every
iteration strictly decreases `list.length - i`, so `list.length + 1`
units of fuel make the bound exact. -/
def prune_go : Nat → Position → List Move → Nat → List Move
  | 0, _, list, _ => list
  | fuel + 1, pos, list, i =>
    if i < list.length then
      let m := list.getD i 0
      if (m.fromSq = pos.king pos.to_move
            ∨ (pos.blockers pos.to_move).hasSq m.fromSq
            ∨ m.kind = MoveKind.EnPassant
            ∨ pos.in_check)
          ∧ ¬ pos.is_legal m then
        prune_go fuel pos (removeAt list i) i
      else
        prune_go fuel pos list (i + 1)
    else list

/-- `generate::prune_to_legal`. -/
def prune_to_legal (pos : Position) (list : List Move) : List Move :=
  prune_go (list.length + 1) pos list 0

/-- `generate::legal`. -/
def legal (pos : Position) : List Move :=
  prune_to_legal pos (pseudo_legal pos)

end generate

/-! ### Make / unmake (`position.rs`) -/

namespace Position

/-- `Position::make_move`.  Panicking paths (`expect`, `unwrap`,
occupied-square `add_piece`) yield `none`. -/
def make_move (p0 : Position) (mov : Move) : Option Position := do
  -- push a cloned state and link the old one as `previous`
  let p := { p0 with stack := p0.st.clone :: p0.stack }
  let p := p.modSt (fun s => { s with halfmoves := s.halfmoves + 1 })
  let us := p.to_move
  let them := us.not
  let f := mov.fromSq
  let t := mov.toSq
  let flag := mov.kind
  let mover ← p.piece_on f
  let capture_square := t
  let (p, capture_square) ←
    if mover.kind = .Pawn then do
      let p := p.modSt (fun s => { s with halfmoves := 0 })
      if f.distance t = 2 then
        pure (p.modSt (fun s =>
          { s with en_passant := some (Square.new f.file (us.relative_rank 2)) }),
          capture_square)
      else if flag = .EnPassant then
        pure (p, Square.new t.file f.rank)
      else
        match flag with
        | .Promotion promo_type => do
          let (p1, _) := p.remove_piece f
          let p2 ← p1.add_piece (Piece.new promo_type us) f
          pure (p2, capture_square)
        | _ => pure (p, capture_square)
    else pure (p, capture_square)
  let (p, cap) := p.remove_piece capture_square
  let p := match cap with
    | some piece => p.modSt (fun s => { s with halfmoves := 0, captured := some piece })
    | none => p
  let p ← p.move_piece f t
  let p ←
    if flag = .Castle then do
      let castle_flag :=
        if (CastleFlag.short_for us).to_square = t then CastleFlag.short_for us
        else CastleFlag.long_for us
      p.move_piece castle_flag.rook_from_square castle_flag.rook_to_square
    else pure p
  let p :=
    if mover.kind = .King then
      (CastleFlag.variants_for us).foldl (fun acc cf =>
        if acc.has_castle cf then acc.remove_castle_right cf else acc) p
    else if mover.kind = .Rook then
      (CastleFlag.variants_for us).foldl (fun acc cf =>
        if cf.rook_from_square = f ∧ acc.has_castle cf then acc.remove_castle_right cf
        else acc) p
    else p
  let p :=
    match p.st.captured with
    | some cap =>
      if cap.kind = PieceType.Rook then
        if capture_square.relative us = 56 ∧ p.has_castle (CastleFlag.long_for them) then
          p.remove_castle_right (CastleFlag.long_for them)
        else if capture_square.relative us = 63
            ∧ p.has_castle (CastleFlag.short_for them) then
          p.remove_castle_right (CastleFlag.short_for them)
        else p
      else p
    | none => p
  let p := { p with to_move := p.to_move.not, moves := p.moves + 1 }
  pure p.update_state

/-- `Position::unmake_move`. -/
def unmake_move (p0 : Position) (mov : Move) : Option Position := do
  let p := { p0 with to_move := p0.to_move.not, moves := p0.moves - 1 }
  let us := p.to_move
  let t := mov.toSq
  let f := mov.fromSq
  let flag := mov.kind
  let p ← p.move_piece t f
  let p ←
    match p.st.captured with
    | some pc => p.add_piece pc t
    | none => pure p
  -- pop the state stack
  let p := { p with stack := p.stack.tail }
  match flag with
  | .EnPassant => do
    let (p1, _) := p.remove_piece t
    p1.add_piece (Piece.new .Pawn us.not) (Square.new t.file f.rank)
  | .Promotion _ => do
    let (p1, _) := p.remove_piece f
    p1.add_piece (Piece.new .Pawn us) f
  | .Castle =>
    match (CastleFlag.variants_for us).find? (fun x => x.to_square = t) with
    | some x => p.move_piece x.rook_to_square x.rook_from_square
    | none => pure p
  | _ => pure p

end Position

/-- `perft.rs`: `perft` / `perft__` (identical semantics; the outer
variant only adds printing).  The `&mut Position` threading through
`make_move`/`unmake_move` is made explicit. -/
def perft : Nat → Position → Option Nat
  | 0, _ => some 1
  | 1, p => some (generate.legal p).length
  | d + 2, p => do
    let moves := generate.legal p
    let r ← moves.foldlM (fun (acc : Position × Nat) x => do
      let p' ← acc.1.make_move x
      let c ← perft (d + 1) p'
      let p'' ← p'.unmake_move x
      pure (p'', acc.2 + c)) (p, 0)
    pure r.2


/-! ### Precomputed bridge tables

`decide`-based proofs below evaluate slowly through the fueled ray
walk, so the 64×8 ray table is spelled out as a literal and proved
equal to `ray` once; heavy finite checks then run on the table form. -/

/-- Discriminant of `Direction` (also its index in `Direction::all`). -/
def Direction.idx : Direction → Nat
  | .North => 0
  | .South => 1
  | .East => 2
  | .West => 3
  | .NorthEast => 4
  | .SouthEast => 5
  | .NorthWest => 6
  | .SouthWest => 7

/-- Literal table of `ray s d` for `s < 64`, rows indexed by square,
columns by `Direction.idx` (proved equal to `ray` in `ray_eq_rayT`). -/
def rayTabL : List (List Bitboard) := [
  [72340172838076672, 0, 254, 0, 9241421688590303744, 0, 0, 0],
  [144680345676153344, 0, 252, 1, 36099303471055872, 0, 256, 0],
  [289360691352306688, 0, 248, 3, 141012904183808, 0, 66048, 0],
  [578721382704613376, 0, 240, 7, 550831656960, 0, 16909312, 0],
  [1157442765409226752, 0, 224, 15, 2151686144, 0, 4328785920, 0],
  [2314885530818453504, 0, 192, 31, 8404992, 0, 1108169199616, 0],
  [4629771061636907008, 0, 128, 63, 32768, 0, 283691315109888, 0],
  [9259542123273814016, 0, 0, 127, 0, 0, 72624976668147712, 0],
  [72340172838076416, 1, 65024, 0, 4620710844295151616, 2, 0, 0],
  [144680345676152832, 2, 64512, 256, 9241421688590303232, 4, 65536, 1],
  [289360691352305664, 4, 63488, 768, 36099303471054848, 8, 16908288, 2],
  [578721382704611328, 8, 61440, 1792, 141012904181760, 16, 4328783872, 4],
  [1157442765409222656, 16, 57344, 3840, 550831652864, 32, 1108169195520, 8],
  [2314885530818445312, 32, 49152, 7936, 2151677952, 64, 283691315101696, 16],
  [4629771061636890624, 64, 32768, 16128, 8388608, 128, 72624976668131328, 32],
  [9259542123273781248, 128, 0, 32512, 0, 0, 145249953336262656, 64],
  [72340172838010880, 257, 16646144, 0, 2310355422147510272, 516, 0, 0],
  [144680345676021760, 514, 16515072, 65536, 4620710844295020544, 1032, 16777216, 256],
  [289360691352043520, 1028, 16252928, 196608, 9241421688590041088, 2064, 4328521728, 513],
  [578721382704087040, 2056, 15728640, 458752, 36099303470530560, 4128, 1108168671232, 1026],
  [1157442765408174080, 4112, 14680064, 983040, 141012903133184, 8256, 283691314053120, 2052],
  [2314885530816348160, 8224, 12582912, 2031616, 550829555712, 16512, 72624976666034176, 4104],
  [4629771061632696320, 16448, 8388608, 4128768, 2147483648, 32768, 145249953332068352, 8208],
  [9259542123265392640, 32896, 0, 8323072, 0, 0, 290499906664136704, 16416],
  [72340172821233664, 65793, 4261412864, 0, 1155177711056977920, 132104, 0, 0],
  [144680345642467328, 131586, 4227858432, 16777216, 2310355422113955840, 264208, 4294967296, 65536],
  [289360691284934656, 263172, 4160749568, 50331648, 4620710844227911680, 528416, 1108101562368, 131328],
  [578721382569869312, 526344, 4026531840, 117440512, 9241421688455823360, 1056832, 283691179835392, 262657],
  [1157442765139738624, 1052688, 3758096384, 251658240, 36099303202095104, 2113664, 72624976397598720, 525314],
  [2314885530279477248, 2105376, 3221225472, 520093696, 141012366262272, 4227072, 145249952795197440, 1050628],
  [4629771060558954496, 4210752, 2147483648, 1056964608, 549755813888, 8388608, 290499905590394880, 2101256],
  [9259542121117908992, 8421504, 0, 2130706432, 0, 0, 580999811180789760, 4202512],
  [72340168526266368, 16843009, 1090921693184, 0, 577588851233521664, 33818640, 0, 0],
  [144680337052532736, 33686018, 1082331758592, 4294967296, 1155177702467043328, 67637280, 1099511627776, 16777216],
  [289360674105065472, 67372036, 1065151889408, 12884901888, 2310355404934086656, 135274560, 283673999966208, 33619968],
  [578721348210130944, 134744072, 1030792151040, 30064771072, 4620710809868173312, 270549120, 72624942037860352, 67240192],
  [1157442696420261888, 269488144, 962072674304, 64424509440, 9241421619736346624, 541097984, 145249884075720704, 134480385],
  [2314885392840523776, 538976288, 824633720832, 133143986176, 36099165763141632, 1082130432, 290499768151441408, 268960770],
  [4629770785681047552, 1077952576, 549755813888, 270582939648, 140737488355328, 2147483648, 580999536302882816, 537921540],
  [9259541571362095104, 2155905152, 0, 545460846592, 0, 0, 1161999072605765632, 1075843080],
  [72339069014638592, 4311810305, 279275953455104, 0, 288793326105133056, 8657571872, 0, 0],
  [144678138029277184, 8623620610, 277076930199552, 1099511627776, 577586652210266112, 17315143744, 281474976710656, 4294967296],
  [289356276058554368, 17247241220, 272678883688448, 3298534883328, 1155173304420532224, 34630287488, 72620543991349248, 8606711808],
  [578712552117108736, 34494482440, 263882790666240, 7696581394432, 2310346608841064448, 69260574720, 145241087982698496, 17213489152],
  [1157425104234217472, 68988964880, 246290604621824, 16492674416640, 4620693217682128896, 138521083904, 290482175965396992, 34426978560],
  [2314850208468434944, 137977929760, 211106232532992, 34084860461056, 9241386435364257792, 277025390592, 580964351930793984, 68853957121],
  [4629700416936869888, 275955859520, 140737488355328, 69269232549888, 36028797018963968, 549755813888, 1161928703861587968, 137707914242],
  [9259400833873739776, 551911719040, 0, 139637976727552, 0, 0, 2323857407723175936, 275415828484],
  [72057594037927936, 1103823438081, 71494644084506624, 0, 144115188075855872, 2216338399296, 0, 0],
  [144115188075855872, 2207646876162, 70931694131085312, 281474976710656, 288230376151711744, 4432676798592, 72057594037927936, 1099511627776],
  [288230376151711744, 4415293752324, 69805794224242688, 844424930131968, 576460752303423488, 8865353596928, 144115188075855872, 2203318222848],
  [576460752303423488, 8830587504648, 67553994410557440, 1970324836974592, 1152921504606846976, 17730707128320, 288230376151711744, 4406653222912],
  [1152921504606846976, 17661175009296, 63050394783186944, 4222124650659840, 2305843009213693952, 35461397479424, 576460752303423488, 8813306511360],
  [2305843009213693952, 35322350018592, 54043195528445952, 8725724278030336, 4611686018427387904, 70918499991552, 1152921504606846976, 17626613022976],
  [4611686018427387904, 70644700037184, 36028797018963968, 17732923532771328, 9223372036854775808, 140737488355328, 2305843009213693952, 35253226045953],
  [9223372036854775808, 141289400074368, 0, 35747322042253312, 0, 0, 4611686018427387904, 70506452091906],
  [0, 282578800148737, 18302628885633695744, 0, 0, 567382630219904, 0, 0],
  [0, 565157600297474, 18158513697557839872, 72057594037927936, 0, 1134765260439552, 0, 281474976710656],
  [0, 1130315200594948, 17870283321406128128, 216172782113783808, 0, 2269530520813568, 0, 564049465049088],
  [0, 2260630401189896, 17293822569102704640, 504403158265495552, 0, 4539061024849920, 0, 1128103225065472],
  [0, 4521260802379792, 16140901064495857664, 1080863910568919040, 0, 9078117754732544, 0, 2256206466908160],
  [0, 9042521604759584, 13835058055282163712, 2233785415175766016, 0, 18155135997837312, 0, 4512412933881856],
  [0, 18085043209519168, 9223372036854775808, 4539628424389459968, 0, 36028797018963968, 0, 9024825867763968],
  [0, 36170086419038336, 0, 9151314442816847872, 0, 0, 0, 18049651735527937]]

/-- Table-backed form of `ray`. -/
def rayT (s : Square) (d : Direction) : Bitboard :=
  (rayTabL.getD s []).getD d.idx 0

/-- Table-backed form of `Bitboard.interval`. -/
def intervalT (a b : Square) : Bitboard :=
  match a.dir_to b with
  | some d => rayT a d &&& rayT b d.not
  | none => 0

/-! ### Claim C5: the legality-filter rules as the spec states them -/

/-- The condition under which `generate::prune_to_legal` subjects a
move to `is_legal` at all (king mover, pinned mover, en passant, or in
check); the loop keeps the move exactly when this gate fails or
`is_legal` passes. -/
def keepMove (pos : Position) (m : Move) : Bool :=
  decide (¬ ((m.fromSq = pos.king pos.to_move
      ∨ (pos.blockers pos.to_move).hasSq m.fromSq = true
      ∨ m.kind = MoveKind.EnPassant
      ∨ pos.in_check = true)
    ∧ ¬ pos.is_legal m = true))

/-- The check-and-pin rules exactly as claim C5 lists them: when in
check, a non-king move requires no double check and must capture the
sole checker, land between checker and king, or (for en passant)
capture the checking pawn; castling is rejected while in check; a king
move requires its destination and every traversed square unattacked
with the king removed from the occupancy; a pinned mover must stay on
the line through the pinned piece (equivalently its pinner) and the
king. -/
def c5Rules (p : Position) (m : Move) : Bool :=
  let us := p.to_move
  let f := m.fromSq
  let t := m.toSq
  let kingSq := p.king us
  (if p.in_check ∧ f ≠ kingSq then
    (!(p.checkers).more_than_one) &&
    (if m.kind = .EnPassant then (p.checkers).hasSq (Square.new t.file f.rank)
     else (p.checkers).hasSq t
       || (Bitboard.interval (Bitboard.lsb p.checkers) kingSq).hasSq t)
   else true) &&
  (decide ¬ (p.in_check = true ∧ m.kind = .Castle ∧ f = kingSq)) &&
  (if f = kingSq then
    (Bitboard.toList (Bitboard.interval f t ||| Bitboard.fromSquare t)).all (fun x =>
      p.attacks_to_with_occ x us.not (p.all ^^^ Bitboard.fromSquare f) = 0)
   else true) &&
  (if (p.blockers us).hasSq f then (line f kingSq).hasSq t else true)

/-- The en-passant safety rule the code enforces but claim C5 omits:
an en-passant capture must not reveal a slider attack on the king once
both the capturing and the captured pawn leave their squares. -/
def c5EpSafety (p : Position) (m : Move) : Bool :=
  if m.kind = .EnPassant then
    let cs := Square.new m.toSq.file m.fromSq.rank
    p.sliders_to (p.king p.to_move)
        (p.all ^^^ (Bitboard.fromSquare cs ||| Bitboard.fromSquare m.fromSq
          ||| Bitboard.fromSquare m.toSq))
      &&& p.color p.to_move.not = 0
  else true

/-- The position used to refute claim C5 as stated: from
`4k3/2p5/8/KP5r/8/8/8/8 b - -`, Black double-pushes c7c5, giving White
the en-passant target c6 while the b5 pawn is not a blocker (two pieces
stand between the rook on h5 and the king on a5). -/
def c5Pos : Position :=
  ((Position.new_from_fen "4k3/2p5/8/KP5r/8/8/8/8 b - -".toList).bind
    (fun p0 => p0.make_move (Move.new 50 34))).getD Position.new

/-! ### Named-square helper for claim C9 (spec side) -/

/-- The square named by a file letter and a rank digit in coordinate
notation (so that the characters of "e1" name square E1 = 4). -/
def namedSquare (fc rc : Char) : Square :=
  Square.new (fc.toNat - 97) (rc.toNat - 49)

/-! ## Theorems -/

set_option maxHeartbeats 2000000 in
/-- The ray table agrees with the ray computation of `precompute.rs`. -/
theorem ray_eq_rayT : ∀ (s : Fin 64) (d : Direction), ray s.val d = rayT s.val d := by
  decide

/-- `Bitboard.interval` agrees with its table-backed form. -/
theorem interval_eq_intervalT (a b : Fin 64) :
    Bitboard.interval a.val b.val = intervalT a.val b.val := by
  unfold Bitboard.interval intervalT
  cases h : Square.dir_to a.val b.val with
  | none => rfl
  | some d =>
    show ray a.val d &&& ray b.val d.not = rayT a.val d &&& rayT b.val d.not
    rw [ray_eq_rayT a d, ray_eq_rayT b d.not]

set_option maxHeartbeats 12000000 in
/-- C7 checked on the table-backed interval. -/
theorem intervalT_c7 : ∀ (a b : Fin 64),
    intervalT a.val b.val = intervalT b.val a.val ∧
    ((a.val = b.val ∨ sharesLine a.val b.val = false) →
      intervalT a.val b.val = 0) ∧
    intervalT a.val b.val = betweenBB a.val b.val ∧
    (intervalT a.val b.val).hasSq a.val = false ∧
    (intervalT a.val b.val).hasSq b.val = false := by
  decide

/-- C7: `Bitboard::interval` is symmetric in its two endpoints; it is
empty when the squares do not share a rank, file or diagonal (and when
they coincide); and it always equals the bitboard of squares strictly
between the endpoints along their shared line — in particular it never
contains either endpoint. -/
theorem interval_c7 (a b : Fin 64) :
    Bitboard.interval a.val b.val = Bitboard.interval b.val a.val ∧
    ((a.val = b.val ∨ sharesLine a.val b.val = false) →
      Bitboard.interval a.val b.val = 0) ∧
    Bitboard.interval a.val b.val = betweenBB a.val b.val ∧
    (Bitboard.interval a.val b.val).hasSq a.val = false ∧
    (Bitboard.interval a.val b.val).hasSq b.val = false := by
  rw [interval_eq_intervalT a b, interval_eq_intervalT b a]
  exact intervalT_c7 a b

/-- Witness for `interval_c7` at a concrete pair (discharging the
inner implication at `a = b`). -/
theorem interval_c7_witness : Bitboard.interval 9 9 = 0 :=
  (interval_c7 9 9).2.1 (Or.inl rfl)

/-- Monotone bound transport for powers of two. -/
theorem lt_pow_mono {n k i : Nat} (h : n < 2 ^ k) (hk : k ≤ i) : n < 2 ^ i :=
  lt_of_lt_of_le h (Nat.pow_le_pow_right (by norm_num) hk)

theorem extract_low (f t g : Nat) (hf : f < 64) :
    (f ||| (t <<< 6) ||| (g <<< 12)) &&& 63 = f := by
  have hf6 : f < 2 ^ 6 := hf
  apply Nat.eq_of_testBit_eq
  intro i
  rw [Nat.testBit_land, Nat.testBit_lor, Nat.testBit_lor, Nat.testBit_shiftLeft,
    Nat.testBit_shiftLeft, show (63 : Nat) = 2 ^ 6 - 1 from rfl,
    Nat.testBit_two_pow_sub_one]
  by_cases hi : i < 6
  · have h6 : ¬ (i ≥ 6) := by omega
    have h12 : ¬ (i ≥ 12) := by omega
    simp [hi, h6, h12]
  · have hfb : f.testBit i = false :=
      Nat.testBit_eq_false_of_lt (lt_pow_mono hf6 (show 6 ≤ i by omega))
    simp [hi, hfb]

theorem extract_mid (f t g : Nat) (hf : f < 64) (ht : t < 64) :
    ((f ||| (t <<< 6) ||| (g <<< 12)) >>> 6) &&& 63 = t := by
  have hf6 : f < 2 ^ 6 := hf
  have ht6 : t < 2 ^ 6 := ht
  apply Nat.eq_of_testBit_eq
  intro i
  rw [Nat.testBit_land, Nat.testBit_shiftRight, Nat.testBit_lor, Nat.testBit_lor,
    Nat.testBit_shiftLeft, Nat.testBit_shiftLeft,
    show (63 : Nat) = 2 ^ 6 - 1 from rfl, Nat.testBit_two_pow_sub_one]
  have hfb : f.testBit (6 + i) = false :=
    Nat.testBit_eq_false_of_lt (lt_pow_mono hf6 (show 6 ≤ 6 + i by omega))
  by_cases hi : i < 6
  · have h12 : ¬ (6 + i ≥ 12) := by omega
    have h6 : (6 + i ≥ 6) := by omega
    simp [hi, h6, h12, hfb, Nat.add_sub_cancel_left]
  · have htb : t.testBit i = false :=
      Nat.testBit_eq_false_of_lt (lt_pow_mono ht6 (show 6 ≤ i by omega))
    simp [hi, htb]

theorem extract_high (f t g : Nat) (hf : f < 64) (ht : t < 64) (hg : g < 8) :
    ((f ||| (t <<< 6) ||| (g <<< 12)) >>> 12) &&& 7 = g := by
  have hf6 : f < 2 ^ 6 := hf
  have ht6 : t < 2 ^ 6 := ht
  have hg3 : g < 2 ^ 3 := hg
  apply Nat.eq_of_testBit_eq
  intro i
  rw [Nat.testBit_land, Nat.testBit_shiftRight, Nat.testBit_lor, Nat.testBit_lor,
    Nat.testBit_shiftLeft, Nat.testBit_shiftLeft,
    show (7 : Nat) = 2 ^ 3 - 1 from rfl, Nat.testBit_two_pow_sub_one]
  have hfb : f.testBit (12 + i) = false :=
    Nat.testBit_eq_false_of_lt (lt_pow_mono hf6 (show 6 ≤ 12 + i by omega))
  have htb : t.testBit (12 + i - 6) = false :=
    Nat.testBit_eq_false_of_lt (lt_pow_mono ht6 (show 6 ≤ 12 + i - 6 by omega))
  by_cases hi : i < 3
  · have h12 : (12 + i ≥ 12) := by omega
    have h6 : (12 + i ≥ 6) := by omega
    simp [hi, h6, h12, hfb, htb, show 12 + i - 12 = i by omega]
  · have hgb : g.testBit i = false :=
      Nat.testBit_eq_false_of_lt (lt_pow_mono hg3 (show 3 ≤ i by omega))
    simp [hi, hgb]

theorem new_with_kind_eq (f t : Nat) (k : MoveKind) (hk : validMoveKind k) :
    Move.new_with_kind f t k = f ||| (t <<< 6) ||| (kindTag k <<< 12) := by
  cases k with
  | Normal => rfl
  | Castle => rfl
  | EnPassant => rfl
  | Promotion pt => cases pt with
    | Pawn => exact absurd rfl hk.1
    | King => exact absurd rfl hk.2
    | _ => rfl

set_option maxHeartbeats 1000000 in
/-- C8: for any from/to squares with `from ≠ to` and any move kind
satisfying the `Move` invariant (promotions carry neither pawn nor
king), encoding with `Move::new_with_kind` and decoding with
`from`/`to`/`kind` reproduces the triple exactly, and the packed value
is never the all-zero pattern. -/
theorem move_encoding_roundtrip (f t : Fin 64) (k : MoveKind)
    (hk : validMoveKind k) (hft : f.val ≠ t.val) :
    (Move.new_with_kind f.val t.val k).fromSq = f.val ∧
    (Move.new_with_kind f.val t.val k).toSq = t.val ∧
    (Move.new_with_kind f.val t.val k).kind = k ∧
    Move.new_with_kind f.val t.val k ≠ 0 := by
  have hE := new_with_kind_eq f.val t.val k hk
  have htag : kindTag k < 8 := by
    cases k with
    | Promotion pt => cases pt <;> simp [kindTag, PieceType.idx]
    | _ => simp [kindTag]
  have hlow : (Move.new_with_kind f.val t.val k).fromSq = f.val := by
    rw [Move.fromSq, hE]
    exact extract_low _ _ _ f.isLt
  have hmid : (Move.new_with_kind f.val t.val k).toSq = t.val := by
    rw [Move.toSq, hE]
    exact extract_mid _ _ _ f.isLt t.isLt
  have hhigh : ((Move.new_with_kind f.val t.val k) >>> 12) &&& 7 = kindTag k := by
    rw [hE]
    exact extract_high _ _ _ f.isLt t.isLt htag
  refine ⟨hlow, hmid, ?_, ?_⟩
  · rw [Move.kind, hhigh]
    cases k with
    | Normal => rfl
    | Castle => rfl
    | EnPassant => rfl
    | Promotion pt => cases pt with
      | Pawn => exact absurd rfl hk.1
      | King => exact absurd rfl hk.2
      | Knight => rfl
      | Bishop => rfl
      | Rook => rfl
      | Queen => rfl
  · intro h0
    rw [h0] at hlow hmid
    exact hft (hlow.symm.trans hmid)

/-- Witness for `move_encoding_roundtrip` at a concrete triple. -/
theorem move_encoding_roundtrip_witness :
    (Move.new_with_kind (4 : Fin 64).val (28 : Fin 64).val
        (.Promotion .Queen)).fromSq = (4 : Fin 64).val ∧
    (Move.new_with_kind (4 : Fin 64).val (28 : Fin 64).val
        (.Promotion .Queen)).toSq = (28 : Fin 64).val ∧
    (Move.new_with_kind (4 : Fin 64).val (28 : Fin 64).val
        (.Promotion .Queen)).kind = .Promotion .Queen ∧
    Move.new_with_kind (4 : Fin 64).val (28 : Fin 64).val
        (.Promotion .Queen) ≠ 0 :=
  move_encoding_roundtrip 4 28 (.Promotion .Queen) ⟨by decide, by decide⟩ (by decide)

set_option maxHeartbeats 16000000 in
/-- C9 (failing input): resolving the well-formed UCI string "e1e2"
against the standard starting position returns `Some` of the move
E2 → E3 (packed value 1292), not a move from the named square E1 to the
named square E2: `TryFrom<[u8; 2]> for Square` decodes the rank digit
with `- b'0'` instead of `- b'1'`, shifting every rank up by one (and
rejecting the digit '8' outright). -/
theorem new_from_uci_rank_off_by_one :
    (Position.new_from_fen Position.STARTING_FEN).bind
      (fun p => Move.new_from_uci "e1e2".toList p) = some 1292 ∧
    (1292 : Move).fromSq = 12 ∧
    (1292 : Move).toSq = 20 ∧
    namedSquare 'e' '1' = 4 ∧
    namedSquare 'e' '2' = 12 ∧
    (1292 : Move).fromSq ≠ namedSquare 'e' '1' := by
  refine ⟨by decide, by decide, by decide, by decide, by decide, by decide⟩

set_option maxHeartbeats 16000000 in
/-- C10 (failing input): constructing a position from a well-formed FEN
string whose en-passant field is the valid square name "e3" panics
(`none` in the embedding): `Position::new_from_fen` feeds the raw ASCII
bytes of the field to `TryFrom<u8> for File`/`Rank` (which accept only
0..7) and `unwrap`s the results, so every en-passant square field is
rejected. -/
theorem new_from_fen_ep_panics :
    Position.new_from_fen "4k3/8/8/8/4P3/8/8/4K3 w - e3".toList = none := by
  decide

end Fcpw
